import Mathlib

/-!
# libhdfspp C bindings (`lib/bindings/c/hdfs.cc`, `hdfs_cpp.h`)

A shallow embedding of the C-linkage boundary `hdfsConnect`, `hdfsDisconnect`,
`hdfsOpenFile`, `hdfsCloseFile`, `hdfsPread`, `hdfsFileIsOpenForRead`.

* Pointers are addresses (`Addr`), `0` is `nullptr`.
* The heap is explicit: which `HadoopFileSystem` / `FileHandle` objects are alive,
  and which `hdfs_internal` / `hdfsFile_internal` wrappers are alive and what they own.
* `errno` is a field of the world.
* Every call the boundary makes into the C++ layer, and every write of `errno`,
  is appended to a trace.
* Dereferencing or deleting a wrapper that is not alive is undefined behaviour:
  the embedded function returns `none`.
* The member functions declared in `hdfs_cpp.h` (`Connect`, `OpenFileForRead`,
  `Pread`, `IsOpenForRead`, constructor, destructors) are defined outside these two
  files; they are a parameter (`LowerLayer`) of every boundary function.
* Two concrete C++ layers are used to evaluate the boundary: `demoLower`, over a trivial
  state, and `specLower`, which follows the spec's description of sessions, worker threads
  and streams.
* Integer types are those of an LP64 target: `tSize` is `int32_t`, `tOffset` and
  `off_t` and `ssize_t` are 64-bit signed, `size_t` is 64-bit unsigned.
-/

namespace Hdfs

/-- Pointer values. -/
abbrev Addr := Nat

/-- The null pointer. -/
def nullptr : Addr := 0

/-- Value of `ENODEV` in `<cerrno>` (Linux). -/
def ENODEV : Int := 19

/-- Value of `EBADF` in `<cerrno>` (Linux). -/
def EBADF : Int := 9

/-- Conversion of a signed 64-bit `ssize_t` to the 32-bit signed `tSize`
(the implicit conversion in `return file->get_impl()->Pread(...)`). -/
def toTSize (x : Int) : Int := (x + 2 ^ 31) % 2 ^ 32 - 2 ^ 31

/-- Conversion of a `tSize` argument to the unsigned 64-bit `size_t` parameter `nbyte`
(the implicit conversion at the call `Pread(buffer, length, position)`). -/
def toSizeT (x : Int) : Nat := (x % 2 ^ 64).toNat

/-- Conversion of `bool` to `int` (the return of `hdfsFileIsOpenForRead`). -/
def boolToInt (b : Bool) : Int := if b then 1 else 0

/-- Trace entries: calls into the C++ layer and writes of `errno`. -/
inductive Event where
  | reportError (errnum : Int)
  | lowerErrno (v : Int)
  | newFileSystem (obj : Addr)
  | connect (obj : Addr) (nn : String) (port : Nat) (threads : Nat)
  | deleteFileSystem (obj : Addr)
  | openFileForRead (obj : Addr) (path : String)
  | pread (stream : Addr) (buf : Addr) (nbyte : Nat) (offset : Int)
  | isOpenForRead (stream : Addr)
  | deleteFileHandle (stream : Addr)
  deriving DecidableEq, Repr

/-- An entry that writes `errno` (by the boundary or by the C++ layer). -/
def Event.isErrnoWrite : Event → Bool
  | .reportError _ => true
  | .lowerErrno _ => true
  | _ => false

/-- An entry written by the boundary function `ReportError`. -/
def Event.isReport : Event → Bool
  | .reportError _ => true
  | _ => false

/-- An entry that is a call of a member function, constructor or destructor of a
`HadoopFileSystem` or `FileHandle`. -/
def Event.isLowerCall : Event → Bool
  | .reportError _ => false
  | .lowerErrno _ => false
  | _ => true

/-- The `Status` value returned by `Connect` and `OpenFileForRead`; only `ok()` is used. -/
structure Status where
  ok : Bool
  deriving DecidableEq, Repr

/-- Outcome of a `Status`-returning member function: the status, the value it stored in
`errno` if it stored one, and the state of the C++ layer afterwards. -/
structure StatusCall (σ : Type) where
  status : Status
  errnoWrite : Option Int
  state : σ

/-- Outcome of `FileHandle::Pread`: the `ssize_t` result, the value it stored in `errno`
if it stored one, and the state of the C++ layer afterwards. -/
structure PreadCall (σ : Type) where
  ret : Int
  errnoWrite : Option Int
  state : σ

/-- Modelled from the spec: the bodies of the member functions declared in `hdfs_cpp.h`
(`HadoopFileSystem` constructor and destructor, `Connect`, `OpenFileForRead`,
`FileHandle::Pread`, `FileHandle::IsOpenForRead`, the `FileHandle` destructor) are
missing, so they are fields of this parameter. `σ` is the state of the C++ layer
(connections, worker threads, stream contents, caller buffers). `OpenFileForRead` receives
the address at which the new `FileHandle` is placed when the status is ok. Following the
spec, a stream is created exactly when `OpenFileForRead` is ok; `IsOpenForRead` is a query
with no error signalling; construction and destruction release resources and signal no
error. `Connect`, `OpenFileForRead` and `Pread` may or may not store a value in `errno`. -/
structure LowerLayer (σ : Type) where
  construct : σ → Addr → σ
  Connect : σ → Addr → String → Nat → Nat → StatusCall σ
  destroyFileSystem : σ → Addr → σ
  OpenFileForRead : σ → Addr → String → Addr → StatusCall σ
  Pread : σ → Addr → Addr → Nat → Int → PreadCall σ
  IsOpenForRead : σ → Addr → Bool
  destroyFileHandle : σ → Addr → σ

/-- Program state seen by the boundary. `sessions` and `streams` are the live
`HadoopFileSystem` and `FileHandle` objects; `fsTokens` and `fileTokens` are the live
`hdfs_internal` and `hdfsFile_internal` wrappers, each with the object its `unique_ptr`
owns. -/
structure World (σ : Type) where
  errno : Int
  lower : σ
  next : Nat
  sessions : List Addr
  streams : List Addr
  fsTokens : List (Addr × Addr)
  fileTokens : List (Addr × Addr)
  log : List Event
  deriving DecidableEq

/-- State at program start: nothing allocated, `errno` zero. -/
def World.init {σ : Type} (s : σ) : World σ :=
  { errno := 0, lower := s, next := 0, sessions := [], streams := [],
    fsTokens := [], fileTokens := [], log := [] }

/-- Operator `new`: a fresh non-null address. -/
def World.alloc {σ : Type} (w : World σ) : Addr × World σ :=
  (w.next + 1, { w with next := w.next + 1 })

/-- Dereference of a wrapper pointer: the object it owns, if the wrapper is alive. -/
def get_impl (tok : Addr) (toks : List (Addr × Addr)) : Option Addr :=
  toks.lookup tok

/-- Removal of a wrapper from the table of live wrappers. -/
def dropToken (tok : Addr) (toks : List (Addr × Addr)) : List (Addr × Addr) :=
  toks.eraseP (fun p => p.1 == tok)

/-- Entries a call of the C++ layer adds to the trace: the call, then its write of
`errno` if it made one. -/
def lowerEvents (e : Event) (errnoWrite : Option Int) : List Event :=
  match errnoWrite with
  | none => [e]
  | some v => [e, Event.lowerErrno v]

/-- Effect on the world of a call into the C++ layer. -/
def lowerCall {σ : Type} (w : World σ) (e : Event) (errnoWrite : Option Int) (s : σ) :
    World σ :=
  { w with
    lower := s
    errno := errnoWrite.getD w.errno
    log := w.log ++ lowerEvents e errnoWrite }

/-- Embedding of `static void ReportError(int errnum, std::string msg)` without
`LIBHDFSPP_C_API_ENABLE_DEBUG`: `errno = errnum; (void)msg;`. -/
def ReportError {σ : Type} (w : World σ) (errnum : Int) (_msg : String) : World σ :=
  { w with errno := errnum, log := w.log ++ [Event.reportError errnum] }

/-- Statement `delete fs` for a `HadoopFileSystem *`: runs `~HadoopFileSystem`. -/
def deleteFileSystem {σ : Type} (L : LowerLayer σ) (w : World σ) (obj : Addr) : World σ :=
  { w with
    lower := L.destroyFileSystem w.lower obj
    sessions := w.sessions.erase obj
    log := w.log ++ [Event.deleteFileSystem obj] }

/-- Destruction of the `FileHandle` owned by a `hdfsFile_internal`: runs `~FileHandle`. -/
def deleteFileHandle {σ : Type} (L : LowerLayer σ) (w : World σ) (s : Addr) : World σ :=
  { w with
    lower := L.destroyFileHandle w.lower s
    streams := w.streams.erase s
    log := w.log ++ [Event.deleteFileHandle s] }

/-- Embedding of `int hdfsFileIsOpenForRead(hdfsFile file)`. -/
def hdfsFileIsOpenForRead {σ : Type} (L : LowerLayer σ) (w : World σ) (file : Addr) :
    Option (Int × World σ) :=
  if file ≠ nullptr then
    match get_impl file w.fileTokens with
    | none => none
    | some s =>
      some (boolToInt (L.IsOpenForRead w.lower s),
            { w with log := w.log ++ [Event.isOpenForRead s] })
  else
    some (boolToInt false, w)

/-- Embedding of `hdfsFS hdfsConnect(const char *nn, tPort port)`. -/
def hdfsConnect {σ : Type} (L : LowerLayer σ) (w : World σ) (nn : String) (port : Nat) :
    Addr × World σ :=
  let (fs, w1) := w.alloc
  let w2 : World σ :=
    { w1 with
      lower := L.construct w1.lower fs
      sessions := fs :: w1.sessions
      log := w1.log ++ [Event.newFileSystem fs] }
  let stat := L.Connect w2.lower fs nn port 1
  let w3 := lowerCall w2 (Event.connect fs nn port 1) stat.errnoWrite stat.state
  if !stat.status.ok then
    let w4 := ReportError w3 ENODEV "Unable to connect to NameNode."
    let w5 := deleteFileSystem L w4 fs
    (nullptr, w5)
  else
    let (tok, w4) := w3.alloc
    (tok, { w4 with fsTokens := (tok, fs) :: w4.fsTokens })

/-- Embedding of `int hdfsDisconnect(hdfsFS fs)`. -/
def hdfsDisconnect {σ : Type} (L : LowerLayer σ) (w : World σ) (fs : Addr) :
    Option (Int × World σ) :=
  if fs = nullptr then
    some (-1, ReportError w ENODEV "Cannot disconnect null FS handle.")
  else
    match get_impl fs w.fsTokens with
    | none => none
    | some obj =>
      some (0, deleteFileSystem L { w with fsTokens := dropToken fs w.fsTokens } obj)

/-- Embedding of `hdfsFile hdfsOpenFile(hdfsFS fs, const char *path, int flags, int bufferSize,
short replication, tSize blocksize)`. -/
def hdfsOpenFile {σ : Type} (L : LowerLayer σ) (w : World σ) (fs : Addr) (path : String)
    (_flags _bufferSize _replication _blocksize : Int) : Option (Addr × World σ) :=
  if fs = nullptr then
    some (nullptr, ReportError w ENODEV "Cannot perform FS operations with null FS handle.")
  else
    match get_impl fs w.fsTokens with
    | none => none
    | some obj =>
      let f := w.next + 1
      let stat := L.OpenFileForRead w.lower obj path f
      let w1 := lowerCall w (Event.openFileForRead obj path) stat.errnoWrite stat.state
      if !stat.status.ok then
        some (nullptr, w1)
      else
        let w2 : World σ := { w1 with next := f, streams := f :: w1.streams }
        let (tok, w3) := w2.alloc
        some (tok, { w3 with fileTokens := (tok, f) :: w3.fileTokens })

/-- Embedding of `int hdfsCloseFile(hdfsFS fs, hdfsFile file)`. -/
def hdfsCloseFile {σ : Type} (L : LowerLayer σ) (w : World σ) (fs file : Addr) :
    Option (Int × World σ) :=
  if fs = nullptr then
    some (-1, ReportError w ENODEV "Cannot perform FS operations with null FS handle.")
  else if file = nullptr then
    some (-1, ReportError w EBADF "Cannot perform FS operations with null File handle.")
  else
    match get_impl file w.fileTokens with
    | none => none
    | some s =>
      some (0, deleteFileHandle L { w with fileTokens := dropToken file w.fileTokens } s)

/-- Embedding of `tSize hdfsPread(hdfsFS fs, hdfsFile file, tOffset position, void *buffer,
tSize length)`. -/
def hdfsPread {σ : Type} (L : LowerLayer σ) (w : World σ) (fs file : Addr)
    (position : Int) (buffer : Addr) (length : Int) : Option (Int × World σ) :=
  if fs = nullptr then
    some (-1, ReportError w ENODEV "Cannot perform FS operations with null FS handle.")
  else if file = nullptr then
    some (-1, ReportError w EBADF "Cannot perform FS operations with null File handle.")
  else
    match get_impl file w.fileTokens with
    | none => none
    | some s =>
      let r := L.Pread w.lower s buffer (toSizeT length) position
      some (toTSize r.ret,
            lowerCall w (Event.pread s buffer (toSizeT length) position) r.errnoWrite r.state)

/-- The trace entries added between two worlds. -/
def callTrace {σ : Type} (w w' : World σ) : List Event :=
  w'.log.drop w.log.length

/-- Some write of `errno` happened between the two worlds. -/
def errnoSetDuring {σ : Type} (w w' : World σ) : Bool :=
  (callTrace w w').any Event.isErrnoWrite

/-- The boundary itself wrote `errno` (through `ReportError`) between the two worlds. -/
def boundaryReported {σ : Type} (w w' : World σ) : Bool :=
  (callTrace w w').any Event.isReport

/-- Some member function, constructor or destructor of a session or stream was invoked
between the two worlds. -/
def lowerInvoked {σ : Type} (w w' : World σ) : Bool :=
  (callTrace w w').any Event.isLowerCall

/-- The part of the world that is handle state: live objects and live wrappers. -/
def handleState {σ : Type} (w : World σ) :
    List Addr × List Addr × List (Addr × Addr) × List (Addr × Addr) :=
  (w.sessions, w.streams, w.fsTokens, w.fileTokens)

/-! ## Concrete C++ layers, for evaluation -/

/-- A C++ layer over a trivial state: `Connect` succeeds exactly for port 8020 and
`OpenFileForRead` exactly for the path `/data`; both report failure through their `Status`
only and store nothing in `errno`. `Pread` serves a 5-byte file: for an offset within the
file it returns `min nbyte (5 - offset)`, otherwise it returns -1 after storing `EIO` (5)
in `errno`. -/
def demoLower : LowerLayer Unit where
  construct := fun s _ => s
  Connect := fun s _ _ port _ => { status := ⟨port == 8020⟩, errnoWrite := none, state := s }
  destroyFileSystem := fun s _ => s
  OpenFileForRead := fun s _ path _ =>
    { status := ⟨path == "/data"⟩, errnoWrite := none, state := s }
  Pread := fun s _ _ nbyte offset =>
    if offset < 0 ∨ 5 < offset then { ret := -1, errnoWrite := some 5, state := s }
    else { ret := min (nbyte : Int) (5 - offset), errnoWrite := none, state := s }
  IsOpenForRead := fun _ _ => true
  destroyFileHandle := fun s _ => s

/-- The world after a successful `hdfsConnect` from program start. -/
def demoConnected : World Unit := (hdfsConnect demoLower (World.init ()) "namenode" 8020).2

/-- The token returned by that `hdfsConnect`. -/
def demoFs : Addr := (hdfsConnect demoLower (World.init ()) "namenode" 8020).1

/-- The world after a successful `hdfsOpenFile` of `/data` on the connected demo world. -/
def demoOpened : World Unit :=
  match hdfsOpenFile demoLower demoConnected demoFs "/data" 0 0 0 0 with
  | some r => r.2
  | none => demoConnected

/-- The file token returned by that `hdfsOpenFile`. -/
def demoFile : Addr :=
  match hdfsOpenFile demoLower demoConnected demoFs "/data" 0 0 0 0 with
  | some r => r.1
  | none => nullptr

/-- State of the spec-modelled C++ layer: the constructed `HadoopFileSystem` objects with
the number of worker threads each has running, the sessions holding a live connection,
and the `FileHandle` objects holding an open input stream. -/
structure CppState where
  workers : List (Addr × Nat)
  connected : List Addr
  inputStreams : List Addr
  deriving DecidableEq, Repr

/-- Size in bytes (3 GiB) of the one file `/data` served by `specLower`. -/
def specFileSize : Int := 3221225472

/-- Modelled from the spec: the bodies of the `HadoopFileSystem` and `FileHandle` member
functions are missing; this layer follows the spec's words for them. The constructor
creates the I/O service with zero worker threads. `Connect` (it succeeds for port 8020)
starts `threads` workers and stores the session, and on failure returns a failure status.
The destructor stops and joins the workers of its object and drops its connection.
`OpenFileForRead` (it succeeds for `/data`) creates the stream; on failure no stream is
created and the failure is reported by this layer (it stores `ENOENT`, 2, in `errno`).
`Pread` on an open stream of total size `S` returns `min(L, S - O)` bytes when `O < S` and
0 when `O = S`; when `O > S`, or on a stream that is not open, it returns the failure
sentinel -1 plus an out-of-band code (`EINVAL`, 22). `IsOpenForRead` is true exactly when
the stream was opened and not yet closed. The `FileHandle` destructor closes the stream. -/
def specLower : LowerLayer CppState where
  construct := fun st obj => { st with workers := (obj, 0) :: st.workers }
  Connect := fun st obj _ port threads =>
    if port = 8020 then
      { status := ⟨true⟩, errnoWrite := none,
        state := { st with
          workers := (obj, threads) :: st.workers.eraseP (fun p => p.1 == obj)
          connected := obj :: st.connected } }
    else { status := ⟨false⟩, errnoWrite := none, state := st }
  destroyFileSystem := fun st obj =>
    { st with
      workers := st.workers.eraseP (fun p => p.1 == obj)
      connected := st.connected.erase obj }
  OpenFileForRead := fun st _ path f =>
    if path = "/data" then
      { status := ⟨true⟩, errnoWrite := none,
        state := { st with inputStreams := f :: st.inputStreams } }
    else { status := ⟨false⟩, errnoWrite := some 2, state := st }
  Pread := fun st s _ nbyte offset =>
    if s ∈ st.inputStreams ∧ 0 ≤ offset ∧ offset ≤ specFileSize then
      { ret := min (nbyte : Int) (specFileSize - offset), errnoWrite := none, state := st }
    else { ret := -1, errnoWrite := some 22, state := st }
  IsOpenForRead := fun st s => decide (s ∈ st.inputStreams)
  destroyFileHandle := fun st s => { st with inputStreams := st.inputStreams.erase s }

/-- The spec-modelled C++ layer at program start: no object, no thread, no stream. -/
def specStart : World CppState :=
  World.init { workers := [], connected := [], inputStreams := [] }

/-- The world after a successful `hdfsConnect` on `specLower` from program start. -/
def specConnected : World CppState := (hdfsConnect specLower specStart "namenode" 8020).2

/-- The token returned by that `hdfsConnect`. -/
def specFs : Addr := (hdfsConnect specLower specStart "namenode" 8020).1

/-- The world after a successful `hdfsOpenFile` of `/data` on `specConnected`. -/
def specOpened : World CppState :=
  match hdfsOpenFile specLower specConnected specFs "/data" 0 0 0 0 with
  | some r => r.2
  | none => specConnected

/-- The file token returned by that `hdfsOpenFile`. -/
def specFile : Addr :=
  match hdfsOpenFile specLower specConnected specFs "/data" 0 0 0 0 with
  | some r => r.1
  | none => nullptr

/-- Heap consistency of a world: no object and no wrapper is listed twice, and every
address in use was handed out by `World.alloc` (it is at most `next`). It holds at program
start and every boundary function preserves it. -/
def World.WF {σ : Type} (w : World σ) : Prop :=
  w.sessions.Nodup ∧ w.streams.Nodup ∧
  (w.fsTokens.map Prod.fst).Nodup ∧ (w.fileTokens.map Prod.fst).Nodup ∧
  (∀ a ∈ w.sessions, a ≤ w.next) ∧ (∀ a ∈ w.streams, a ≤ w.next) ∧
  (∀ a ∈ w.fsTokens.map Prod.fst, a ≤ w.next) ∧
  (∀ a ∈ w.fileTokens.map Prod.fst, a ≤ w.next)

/-- The call `fs->Connect(nn, port)` that `hdfsConnect` makes from world `w`: on the
object just constructed at the fresh address, with the default `threads = 1`. -/
def connectCall {σ : Type} (L : LowerLayer σ) (w : World σ) (nn : String) (port : Nat) :
    StatusCall σ :=
  L.Connect (L.construct w.lower (w.next + 1)) (w.next + 1) nn port 1

/-- The call `fs->get_impl()->OpenFileForRead(path, &f)` that `hdfsOpenFile` makes from
world `w` on the session `obj`. -/
def openCall {σ : Type} (L : LowerLayer σ) (w : World σ) (obj : Addr) (path : String) :
    StatusCall σ :=
  L.OpenFileForRead w.lower obj path (w.next + 1)

/-- The call `file->get_impl()->Pread(buffer, length, position)` that `hdfsPread` makes
from world `w` on the stream `s`. -/
def preadCall {σ : Type} (L : LowerLayer σ) (w : World σ) (s : Addr) (position : Int)
    (buffer : Addr) (length : Int) : PreadCall σ :=
  L.Pread w.lower s buffer (toSizeT length) position

/-- The call returned `ret` after one `ReportError errnum` and nothing else: `errno` holds
`errnum`, no member function of a session or stream was invoked, and neither the handle
state nor the state of the C++ layer changed. -/
def failsWith {σ α : Type} (w : World σ) (res : Option (α × World σ)) (ret : α)
    (errnum : Int) : Prop :=
  ∃ w', res = some (ret, w') ∧ w'.errno = errnum ∧
    callTrace w w' = [Event.reportError errnum] ∧ lowerInvoked w w' = false ∧
    handleState w' = handleState w ∧ w'.lower = w.lower

/-! ## Helper lemmas -/

theorem callTrace_of_log {σ : Type} (w w' : World σ) (es : List Event)
    (h : w'.log = w.log ++ es) : callTrace w w' = es := by
  simp [callTrace, h]

theorem failsWith_ReportError {σ α : Type} (w : World σ) (ret : α) (errnum : Int)
    (msg : String) : failsWith w (some (ret, ReportError w errnum msg)) ret errnum := by
  refine ⟨ReportError w errnum msg, rfl, rfl, ?_, ?_, rfl, rfl⟩
  · exact callTrace_of_log _ _ _ rfl
  · simp [lowerInvoked, callTrace_of_log w (ReportError w errnum msg) _ rfl,
      Event.isLowerCall]

theorem trace_lowerCall {σ : Type} (w : World σ) (e : Event) (ew : Option Int) (s : σ) :
    callTrace w (lowerCall w e ew s) = lowerEvents e ew :=
  callTrace_of_log _ _ _ rfl

theorem any_isReport_lowerEvents (e : Event) (ew : Option Int) :
    (lowerEvents e ew).any Event.isReport = e.isReport := by
  cases ew <;> simp [lowerEvents, Event.isReport]

theorem hdfsConnect_not_ok {σ : Type} (L : LowerLayer σ) (w : World σ) (nn : String)
    (port : Nat) (h : (connectCall L w nn port).status.ok = false) :
    hdfsConnect L w nn port =
      (nullptr,
       { w with
         errno := ENODEV
         lower := L.destroyFileSystem (connectCall L w nn port).state (w.next + 1)
         next := w.next + 1
         log := w.log ++ (Event.newFileSystem (w.next + 1) ::
           lowerEvents (Event.connect (w.next + 1) nn port 1)
             (connectCall L w nn port).errnoWrite ++
           [Event.reportError ENODEV, Event.deleteFileSystem (w.next + 1)]) }) := by
  unfold connectCall at h
  simp [hdfsConnect, World.alloc, h, lowerCall, ReportError, deleteFileSystem, connectCall]

theorem hdfsConnect_ok {σ : Type} (L : LowerLayer σ) (w : World σ) (nn : String)
    (port : Nat) (h : (connectCall L w nn port).status.ok = true) :
    hdfsConnect L w nn port =
      (w.next + 2,
       { w with
         errno := (connectCall L w nn port).errnoWrite.getD w.errno
         lower := (connectCall L w nn port).state
         next := w.next + 2
         sessions := (w.next + 1) :: w.sessions
         fsTokens := (w.next + 2, w.next + 1) :: w.fsTokens
         log := w.log ++ (Event.newFileSystem (w.next + 1) ::
           lowerEvents (Event.connect (w.next + 1) nn port 1)
             (connectCall L w nn port).errnoWrite) }) := by
  unfold connectCall at h
  simp [hdfsConnect, World.alloc, h, lowerCall, connectCall]

theorem hdfsOpenFile_not_ok {σ : Type} (L : LowerLayer σ) (w : World σ) (fs obj : Addr)
    (path : String) (flags bufferSize replication blocksize : Int) (hfs : fs ≠ nullptr)
    (hlive : get_impl fs w.fsTokens = some obj)
    (h : (openCall L w obj path).status.ok = false) :
    hdfsOpenFile L w fs path flags bufferSize replication blocksize =
      some (nullptr,
        lowerCall w (Event.openFileForRead obj path) (openCall L w obj path).errnoWrite
          (openCall L w obj path).state) := by
  unfold openCall at h
  simp [hdfsOpenFile, hfs, hlive, h, openCall]

theorem hdfsOpenFile_ok {σ : Type} (L : LowerLayer σ) (w : World σ) (fs obj : Addr)
    (path : String) (flags bufferSize replication blocksize : Int) (hfs : fs ≠ nullptr)
    (hlive : get_impl fs w.fsTokens = some obj)
    (h : (openCall L w obj path).status.ok = true) :
    hdfsOpenFile L w fs path flags bufferSize replication blocksize =
      some (w.next + 2,
        { lowerCall w (Event.openFileForRead obj path) (openCall L w obj path).errnoWrite
            (openCall L w obj path).state with
          next := w.next + 2
          streams := (w.next + 1) :: w.streams
          fileTokens := (w.next + 2, w.next + 1) :: w.fileTokens }) := by
  unfold openCall at h
  simp [hdfsOpenFile, hfs, hlive, h, openCall, World.alloc, lowerCall]

theorem hdfsPread_live {σ : Type} (L : LowerLayer σ) (w : World σ) (fs file s : Addr)
    (position : Int) (buffer : Addr) (length : Int) (hfs : fs ≠ nullptr)
    (hfile : file ≠ nullptr) (hlive : get_impl file w.fileTokens = some s) :
    hdfsPread L w fs file position buffer length =
      some (toTSize (preadCall L w s position buffer length).ret,
        lowerCall w (Event.pread s buffer (toSizeT length) position)
          (preadCall L w s position buffer length).errnoWrite
          (preadCall L w s position buffer length).state) := by
  simp [hdfsPread, hfs, hfile, hlive, preadCall]

theorem hdfsCloseFile_live {σ : Type} (L : LowerLayer σ) (w : World σ) (fs file s : Addr)
    (hfs : fs ≠ nullptr) (hfile : file ≠ nullptr)
    (hlive : get_impl file w.fileTokens = some s) :
    hdfsCloseFile L w fs file =
      some (0,
        { w with
          lower := L.destroyFileHandle w.lower s
          streams := w.streams.erase s
          fileTokens := dropToken file w.fileTokens
          log := w.log ++ [Event.deleteFileHandle s] }) := by
  simp [hdfsCloseFile, hfs, hfile, hlive, deleteFileHandle]

theorem hdfsDisconnect_live {σ : Type} (L : LowerLayer σ) (w : World σ) (fs obj : Addr)
    (hfs : fs ≠ nullptr) (hlive : get_impl fs w.fsTokens = some obj) :
    hdfsDisconnect L w fs =
      some (0,
        { w with
          lower := L.destroyFileSystem w.lower obj
          sessions := w.sessions.erase obj
          fsTokens := dropToken fs w.fsTokens
          log := w.log ++ [Event.deleteFileSystem obj] }) := by
  simp [hdfsDisconnect, hfs, hlive, deleteFileSystem]

theorem get_impl_dropToken_ne (tok t : Addr) (toks : List (Addr × Addr)) (h : t ≠ tok) :
    get_impl t (dropToken tok toks) = get_impl t toks := by
  induction toks with
  | nil => rfl
  | cons p ps ih =>
    obtain ⟨a, b⟩ := p
    by_cases hat : a = tok
    · subst hat
      have hne : (t == a) = false := by simpa using h
      simp [get_impl, dropToken, List.lookup, hne]
    · have h1 : (a == tok) = false := by simpa using hat
      by_cases hta : t = a
      · subst hta
        simp [get_impl, dropToken, List.lookup, h1, List.eraseP_cons]
      · have h2 : (t == a) = false := by simpa using hta
        simp only [get_impl, dropToken] at ih
        simp [get_impl, dropToken, List.lookup, h1, h2, List.eraseP_cons, ih]

theorem toSizeT_of_nonneg (x : Int) (h0 : 0 ≤ x) (h1 : x < 2 ^ 31) :
    (toSizeT x : Int) = x := by
  unfold toSizeT
  norm_num at h1 ⊢
  omega

theorem toSizeT_of_neg (x : Int) (h0 : -2 ^ 31 ≤ x) (h1 : x < 0) :
    (toSizeT x : Int) = x + 2 ^ 64 := by
  unfold toSizeT
  norm_num at h0 ⊢
  omega

theorem toTSize_of_inRange (x : Int) (h0 : -2 ^ 31 ≤ x) (h1 : x < 2 ^ 31) :
    toTSize x = x := by
  unfold toTSize
  norm_num at h0 h1 ⊢
  omega

theorem get_impl_dropToken_self (tok : Addr) (toks : List (Addr × Addr))
    (h : (toks.map Prod.fst).Nodup) : get_impl tok (dropToken tok toks) = none := by
  induction toks with
  | nil => rfl
  | cons p ps ih =>
    obtain ⟨a, b⟩ := p
    simp only [List.map_cons, List.nodup_cons] at h
    by_cases hat : a = tok
    · subst hat
      have hnot : ∀ q ∈ ps, (a == q.1) = false := by
        intro q hq
        have : q.1 ≠ a := fun e => h.1 (e ▸ List.mem_map_of_mem Prod.fst hq)
        simpa using fun e => this e.symm
      simp only [get_impl, dropToken, List.eraseP_cons, beq_self_eq_true, if_true]
      clear ih h
      induction ps with
      | nil => rfl
      | cons q qs ih2 =>
        obtain ⟨c, d⟩ := q
        have h1 := hnot (c, d) (List.mem_cons_self _ _)
        simp only at h1
        simp only [List.lookup, h1]
        exact ih2 (fun q hq => hnot q (List.mem_cons_of_mem _ hq))
    · have h1 : (a == tok) = false := by simpa using hat
      have h2 : (tok == a) = false := by simpa using fun e : tok = a => hat e.symm
      simp only [get_impl, dropToken] at ih
      simp [get_impl, dropToken, List.lookup, List.eraseP_cons, h1, h2, ih h.2]

theorem mem_keys_dropToken (tok a : Addr) (toks : List (Addr × Addr))
    (h : a ∈ (dropToken tok toks).map Prod.fst) : a ∈ toks.map Prod.fst := by
  simp only [dropToken, List.mem_map] at h ⊢
  obtain ⟨p, hp, rfl⟩ := h
  exact ⟨p, List.mem_of_mem_eraseP hp, rfl⟩

theorem nodup_keys_dropToken (tok : Addr) (toks : List (Addr × Addr))
    (h : (toks.map Prod.fst).Nodup) : ((dropToken tok toks).map Prod.fst).Nodup := by
  have hsub : ((dropToken tok toks).map Prod.fst).Sublist (toks.map Prod.fst) :=
    List.Sublist.map _ (List.eraseP_sublist _)
  exact h.sublist hsub

theorem get_impl_mem_keys (tok obj : Addr) (toks : List (Addr × Addr))
    (h : get_impl tok toks = some obj) : tok ∈ toks.map Prod.fst := by
  induction toks with
  | nil => simp [get_impl, List.lookup] at h
  | cons p ps ih =>
    obtain ⟨a, b⟩ := p
    by_cases hta : tok = a
    · simp [hta]
    · have h2 : (tok == a) = false := by simpa using hta
      simp only [get_impl, List.lookup, h2] at h
      exact List.mem_cons_of_mem _ (ih h)

theorem WF_init {σ : Type} (s : σ) : (World.init s).WF := by
  simp [World.WF, World.init]

theorem WF_ReportError {σ : Type} (w : World σ) (errnum : Int) (msg : String)
    (h : w.WF) : (ReportError w errnum msg).WF := h

theorem WF_lowerCall {σ : Type} (w : World σ) (e : Event) (ew : Option Int) (s : σ)
    (h : w.WF) : (lowerCall w e ew s).WF := h

theorem WF_hdfsConnect {σ : Type} (L : LowerLayer σ) (w : World σ) (nn : String)
    (port : Nat) (h : w.WF) : (hdfsConnect L w nn port).2.WF := by
  obtain ⟨h1, h2, h3, h4, h5, h6, h7, h8⟩ := h
  cases hok : (connectCall L w nn port).status.ok
  · rw [hdfsConnect_not_ok L w nn port hok]
    exact ⟨h1, h2, h3, h4, fun a ha => Nat.le_succ_of_le (h5 a ha),
      fun a ha => Nat.le_succ_of_le (h6 a ha), fun a ha => Nat.le_succ_of_le (h7 a ha),
      fun a ha => Nat.le_succ_of_le (h8 a ha)⟩
  · rw [hdfsConnect_ok L w nn port hok]
    refine ⟨?_, h2, ?_, h4, ?_, ?_, ?_, ?_⟩
    · exact List.nodup_cons.mpr ⟨fun hm => Nat.not_succ_le_self _ (h5 _ hm), h1⟩
    · simp only [List.map_cons]
      exact List.nodup_cons.mpr ⟨fun hm => absurd (h7 _ hm) (Nat.not_le_of_gt (Nat.lt_add_of_pos_right (by decide))), h3⟩
    · intro a ha
      rcases List.mem_cons.mp ha with rfl | ha
      · show w.next + 1 ≤ w.next + 2
        omega
      · exact Nat.le_trans (h5 a ha) (by show w.next ≤ w.next + 2; omega)
    · intro a ha
      exact Nat.le_trans (h6 a ha) (by show w.next ≤ w.next + 2; omega)
    · intro a ha
      simp only [List.map_cons] at ha
      rcases List.mem_cons.mp ha with rfl | ha
      · exact Nat.le_refl _
      · exact Nat.le_trans (h7 a ha) (by show w.next ≤ w.next + 2; omega)
    · intro a ha
      exact Nat.le_trans (h8 a ha) (by show w.next ≤ w.next + 2; omega)

theorem WF_hdfsDisconnect {σ : Type} (L : LowerLayer σ) (w : World σ) (fs : Addr)
    (r : Int) (w' : World σ) (h : w.WF) (hres : hdfsDisconnect L w fs = some (r, w')) :
    w'.WF := by
  by_cases hfs : fs = nullptr
  · simp only [hdfsDisconnect, hfs, if_true, Option.some.injEq, Prod.mk.injEq] at hres
    obtain ⟨-, rfl⟩ := hres
    exact h
  · cases hl : get_impl fs w.fsTokens with
    | none => simp [hdfsDisconnect, hfs, hl] at hres
    | some obj =>
      rw [hdfsDisconnect_live L w fs obj hfs hl] at hres
      simp only [Option.some.injEq, Prod.mk.injEq] at hres
      obtain ⟨-, rfl⟩ := hres
      obtain ⟨h1, h2, h3, h4, h5, h6, h7, h8⟩ := h
      exact ⟨h1.erase obj, h2, nodup_keys_dropToken fs _ h3, h4,
        fun a ha => h5 a (List.mem_of_mem_erase ha), h6,
        fun a ha => h7 a (mem_keys_dropToken fs a _ ha), h8⟩

theorem WF_hdfsOpenFile {σ : Type} (L : LowerLayer σ) (w : World σ) (fs : Addr)
    (path : String) (flags bufferSize replication blocksize : Int) (r : Addr)
    (w' : World σ) (h : w.WF)
    (hres : hdfsOpenFile L w fs path flags bufferSize replication blocksize = some (r, w')) :
    w'.WF := by
  by_cases hfs : fs = nullptr
  · simp only [hdfsOpenFile, hfs, if_true, Option.some.injEq, Prod.mk.injEq] at hres
    obtain ⟨-, rfl⟩ := hres
    exact h
  · cases hl : get_impl fs w.fsTokens with
    | none => simp [hdfsOpenFile, hfs, hl] at hres
    | some obj =>
      cases hok : (openCall L w obj path).status.ok
      · rw [hdfsOpenFile_not_ok L w fs obj path _ _ _ _ hfs hl hok] at hres
        simp only [Option.some.injEq, Prod.mk.injEq] at hres
        obtain ⟨-, rfl⟩ := hres
        exact h
      · rw [hdfsOpenFile_ok L w fs obj path _ _ _ _ hfs hl hok] at hres
        simp only [Option.some.injEq, Prod.mk.injEq] at hres
        obtain ⟨-, rfl⟩ := hres
        obtain ⟨h1, h2, h3, h4, h5, h6, h7, h8⟩ := h
        refine ⟨h1, ?_, h3, ?_, ?_, ?_, ?_, ?_⟩
        · exact List.nodup_cons.mpr ⟨fun hm => Nat.not_succ_le_self _ (h6 _ hm), h2⟩
        · simp only [List.map_cons]
          exact List.nodup_cons.mpr ⟨fun hm => absurd (h8 _ hm) (Nat.not_le_of_gt (Nat.lt_add_of_pos_right (by decide))), h4⟩
        · intro a ha
          exact Nat.le_trans (h5 a ha) (by show w.next ≤ w.next + 2; omega)
        · intro a ha
          rcases List.mem_cons.mp ha with rfl | ha
          · show w.next + 1 ≤ w.next + 2
            omega
          · exact Nat.le_trans (h6 a ha) (by show w.next ≤ w.next + 2; omega)
        · intro a ha
          exact Nat.le_trans (h7 a ha) (by show w.next ≤ w.next + 2; omega)
        · intro a ha
          simp only [List.map_cons] at ha
          rcases List.mem_cons.mp ha with rfl | ha
          · exact Nat.le_refl _
          · exact Nat.le_trans (h8 a ha) (by show w.next ≤ w.next + 2; omega)

theorem WF_hdfsCloseFile {σ : Type} (L : LowerLayer σ) (w : World σ) (fs file : Addr)
    (r : Int) (w' : World σ) (h : w.WF) (hres : hdfsCloseFile L w fs file = some (r, w')) :
    w'.WF := by
  by_cases hfs : fs = nullptr
  · simp only [hdfsCloseFile, hfs, if_true, Option.some.injEq, Prod.mk.injEq] at hres
    obtain ⟨-, rfl⟩ := hres
    exact h
  · by_cases hfile : file = nullptr
    · simp only [hdfsCloseFile, hfs, hfile, if_true, if_false, Option.some.injEq,
        Prod.mk.injEq] at hres
      obtain ⟨-, rfl⟩ := hres
      exact h
    · cases hl : get_impl file w.fileTokens with
      | none => simp [hdfsCloseFile, hfs, hfile, hl] at hres
      | some s =>
        rw [hdfsCloseFile_live L w fs file s hfs hfile hl] at hres
        simp only [Option.some.injEq, Prod.mk.injEq] at hres
        obtain ⟨-, rfl⟩ := hres
        obtain ⟨h1, h2, h3, h4, h5, h6, h7, h8⟩ := h
        exact ⟨h1, h2.erase s, h3, nodup_keys_dropToken file _ h4, h5,
          fun a ha => h6 a (List.mem_of_mem_erase ha), h7,
          fun a ha => h8 a (mem_keys_dropToken file a _ ha)⟩

theorem WF_hdfsPread {σ : Type} (L : LowerLayer σ) (w : World σ) (fs file : Addr)
    (position : Int) (buffer : Addr) (length : Int) (r : Int) (w' : World σ) (h : w.WF)
    (hres : hdfsPread L w fs file position buffer length = some (r, w')) : w'.WF := by
  by_cases hfs : fs = nullptr
  · simp only [hdfsPread, hfs, if_true, Option.some.injEq, Prod.mk.injEq] at hres
    obtain ⟨-, rfl⟩ := hres
    exact h
  · by_cases hfile : file = nullptr
    · simp only [hdfsPread, hfs, hfile, if_true, if_false, Option.some.injEq,
        Prod.mk.injEq] at hres
      obtain ⟨-, rfl⟩ := hres
      exact h
    · cases hl : get_impl file w.fileTokens with
      | none => simp [hdfsPread, hfs, hfile, hl] at hres
      | some s =>
        rw [hdfsPread_live L w fs file s position buffer length hfs hfile hl] at hres
        simp only [Option.some.injEq, Prod.mk.injEq] at hres
        obtain ⟨-, rfl⟩ := hres
        exact h

theorem WF_hdfsFileIsOpenForRead {σ : Type} (L : LowerLayer σ) (w : World σ) (file : Addr)
    (r : Int) (w' : World σ) (h : w.WF)
    (hres : hdfsFileIsOpenForRead L w file = some (r, w')) : w'.WF := by
  by_cases hfile : file = nullptr
  · simp only [hdfsFileIsOpenForRead, hfile, ne_eq, not_true_eq_false, if_false,
      Option.some.injEq, Prod.mk.injEq] at hres
    obtain ⟨-, rfl⟩ := hres
    exact h
  · cases hl : get_impl file w.fileTokens with
    | none => simp [hdfsFileIsOpenForRead, hfile, hl] at hres
    | some s =>
      simp only [hdfsFileIsOpenForRead, hfile, ne_eq, not_false_eq_true, if_true, hl,
        Option.some.injEq, Prod.mk.injEq] at hres
      obtain ⟨-, rfl⟩ := hres
      exact h

/-- C1: with a null filesystem handle, `hdfsDisconnect` returns -1, `hdfsOpenFile` returns
the null token, `hdfsCloseFile` returns -1 and `hdfsPread` returns -1; each stores `ENODEV`
in `errno`, whatever the other arguments are (a null file handle included), and no member
function of a session or stream is invoked. -/
theorem C1_null_fs_handle {σ : Type} (L : LowerLayer σ) (w : World σ) (file : Addr)
    (path : String) (flags bufferSize replication blocksize position length : Int)
    (buffer : Addr) :
    failsWith w (hdfsDisconnect L w nullptr) (-1) ENODEV ∧
    failsWith w (hdfsOpenFile L w nullptr path flags bufferSize replication blocksize)
      nullptr ENODEV ∧
    failsWith w (hdfsCloseFile L w nullptr file) (-1) ENODEV ∧
    failsWith w (hdfsPread L w nullptr file position buffer length) (-1) ENODEV := by
  refine ⟨?_, ?_, ?_, ?_⟩
  · simpa [hdfsDisconnect] using failsWith_ReportError w (-1 : Int) ENODEV _
  · simpa [hdfsOpenFile] using failsWith_ReportError w nullptr ENODEV _
  · simpa [hdfsCloseFile] using failsWith_ReportError w (-1 : Int) ENODEV _
  · simpa [hdfsPread] using failsWith_ReportError w (-1 : Int) ENODEV _

/-- C2: with a non-null filesystem handle and a null file handle, `hdfsCloseFile` and
`hdfsPread` both return -1 and store `EBADF` (which differs from `ENODEV`) in `errno`, for
every position, buffer and length, and no member function of a stream is invoked. -/
theorem C2_null_file_handle {σ : Type} (L : LowerLayer σ) (w : World σ) (fs : Addr)
    (position length : Int) (buffer : Addr) (hfs : fs ≠ nullptr) :
    failsWith w (hdfsCloseFile L w fs nullptr) (-1) EBADF ∧
    failsWith w (hdfsPread L w fs nullptr position buffer length) (-1) EBADF ∧
    EBADF ≠ ENODEV := by
  refine ⟨?_, ?_, by decide⟩
  · simpa [hdfsCloseFile, hfs] using failsWith_ReportError w (-1 : Int) EBADF _
  · simpa [hdfsPread, hfs] using failsWith_ReportError w (-1 : Int) EBADF _

/-- Witness of C2 at the connected demo world, with a dangling non-null filesystem
handle. -/
theorem C2_null_file_handle_witness :
    (7 : Addr) ≠ nullptr ∧
    (failsWith demoConnected (hdfsCloseFile demoLower demoConnected 7 nullptr) (-1) EBADF ∧
     failsWith demoConnected (hdfsPread demoLower demoConnected 7 nullptr 0 64 16) (-1)
       EBADF ∧
     EBADF ≠ ENODEV) :=
  ⟨by decide, C2_null_file_handle demoLower demoConnected 7 0 16 64 (by decide)⟩

/-- C4 (as stated, refuted): on the demo world with an open file, both handles non-null
and alive, `hdfsPread` with `length = -1` invokes `Pread` once with
`nbyte = 18446744073709551615`, which is not the value of `length`. -/
theorem C4_negative_length_reaches_Pread_converted :
    demoFs ≠ nullptr ∧ demoFile ≠ nullptr ∧
    get_impl demoFile demoOpened.fileTokens = some 3 ∧
    (hdfsPread demoLower demoOpened demoFs demoFile 0 64 (-1)).map
      (fun r => callTrace demoOpened r.2) =
      some [Event.pread 3 64 18446744073709551615 0] ∧
    ((18446744073709551615 : Nat) : Int) ≠ -1 := by
  decide

/-- C4 (amended): for non-null `fs`, a non-null live `file` wrapping stream `s`, and every
position, buffer and `tSize` length, `hdfsPread` invokes `Pread` of `s` exactly once, with
`buf = buffer`, `offset = position` and `nbyte` the conversion of `length` to `size_t`
(`length` itself when `length ≥ 0`, `length + 2^64` when `length < 0`); it returns that
call's result narrowed to `tSize` (the result itself when it fits), makes no `ReportError`,
leaves in `errno` what the underlying call left, and gives the same outcome for any other
non-null `fs`. -/
theorem C4_pread_delegates_amended {σ : Type} (L : LowerLayer σ) (w : World σ)
    (fs fs2 file s : Addr) (position : Int) (buffer : Addr) (length : Int)
    (hfs : fs ≠ nullptr) (hfs2 : fs2 ≠ nullptr) (hfile : file ≠ nullptr)
    (hlive : get_impl file w.fileTokens = some s)
    (hlen : -2 ^ 31 ≤ length ∧ length < 2 ^ 31) :
    ∃ w', hdfsPread L w fs file position buffer length =
        some (toTSize (L.Pread w.lower s buffer (toSizeT length) position).ret, w') ∧
      callTrace w w' = lowerEvents (Event.pread s buffer (toSizeT length) position)
        (L.Pread w.lower s buffer (toSizeT length) position).errnoWrite ∧
      ((callTrace w w').filter Event.isLowerCall).length = 1 ∧
      (0 ≤ length → (toSizeT length : Int) = length) ∧
      (length < 0 → (toSizeT length : Int) = length + 2 ^ 64) ∧
      (-2 ^ 31 ≤ (L.Pread w.lower s buffer (toSizeT length) position).ret →
        (L.Pread w.lower s buffer (toSizeT length) position).ret < 2 ^ 31 →
        toTSize (L.Pread w.lower s buffer (toSizeT length) position).ret =
          (L.Pread w.lower s buffer (toSizeT length) position).ret) ∧
      boundaryReported w w' = false ∧
      w'.errno =
        (L.Pread w.lower s buffer (toSizeT length) position).errnoWrite.getD w.errno ∧
      handleState w' = handleState w ∧
      hdfsPread L w fs2 file position buffer length =
        hdfsPread L w fs file position buffer length := by
  refine ⟨_, hdfsPread_live L w fs file s position buffer length hfs hfile hlive,
    trace_lowerCall _ _ _ _, ?_, fun h => toSizeT_of_nonneg _ h hlen.2,
    fun h => toSizeT_of_neg _ hlen.1 h, fun h0 h1 => toTSize_of_inRange _ h0 h1, ?_, rfl,
    rfl, ?_⟩
  · rw [trace_lowerCall]
    unfold preadCall
    cases (L.Pread w.lower s buffer (toSizeT length) position).errnoWrite <;>
      simp [lowerEvents, Event.isLowerCall]
  · simp only [boundaryReported, trace_lowerCall]
    rw [any_isReport_lowerEvents]
    rfl
  · rw [hdfsPread_live L w fs file s position buffer length hfs hfile hlive,
      hdfsPread_live L w fs2 file s position buffer length hfs2 hfile hlive]

/-- Witness of the amended C4: a 3-byte read at offset 2 of the 5-byte demo file through
the handles returned by `hdfsConnect` and `hdfsOpenFile` (and through the dangling non-null
filesystem handle 9). -/
theorem C4_pread_delegates_amended_witness :
    demoFs ≠ nullptr ∧ (9 : Addr) ≠ nullptr ∧ demoFile ≠ nullptr ∧
    get_impl demoFile demoOpened.fileTokens = some 3 ∧
    (-2 ^ 31 ≤ (3 : Int) ∧ (3 : Int) < 2 ^ 31) ∧
    hdfsPread demoLower demoOpened demoFs demoFile 2 64 3 =
      some (3, lowerCall demoOpened (Event.pread 3 64 3 2) none ()) ∧
    ∃ w', hdfsPread demoLower demoOpened demoFs demoFile 2 64 3 =
        some (toTSize (demoLower.Pread demoOpened.lower 3 64 (toSizeT 3) 2).ret, w') ∧
      callTrace demoOpened w' = lowerEvents (Event.pread 3 64 (toSizeT 3) 2)
        (demoLower.Pread demoOpened.lower 3 64 (toSizeT 3) 2).errnoWrite ∧
      ((callTrace demoOpened w').filter Event.isLowerCall).length = 1 ∧
      (0 ≤ (3 : Int) → (toSizeT 3 : Int) = 3) ∧
      ((3 : Int) < 0 → (toSizeT 3 : Int) = 3 + 2 ^ 64) ∧
      (-2 ^ 31 ≤ (demoLower.Pread demoOpened.lower 3 64 (toSizeT 3) 2).ret →
        (demoLower.Pread demoOpened.lower 3 64 (toSizeT 3) 2).ret < 2 ^ 31 →
        toTSize (demoLower.Pread demoOpened.lower 3 64 (toSizeT 3) 2).ret =
          (demoLower.Pread demoOpened.lower 3 64 (toSizeT 3) 2).ret) ∧
      boundaryReported demoOpened w' = false ∧
      w'.errno =
        (demoLower.Pread demoOpened.lower 3 64 (toSizeT 3) 2).errnoWrite.getD
          demoOpened.errno ∧
      handleState w' = handleState demoOpened ∧
      hdfsPread demoLower demoOpened 9 demoFile 2 64 3 =
        hdfsPread demoLower demoOpened demoFs demoFile 2 64 3 :=
  ⟨by decide, by decide, by decide, by decide, by decide, by decide,
   C4_pread_delegates_amended demoLower demoOpened demoFs 9 demoFile 3 2 64 3 (by decide)
     (by decide) (by decide) (by decide) (by decide)⟩

/-- C5: for every host and port, `hdfsConnect` returns the null token exactly when
`Connect(host, port)` on the `HadoopFileSystem` it constructed is not ok. In that case
the whole outcome is fixed: it stores `ENODEV` in `errno` through `ReportError` and then
runs the destructor of the object it constructed, on the state `Connect` left; the live
sessions and wrappers are those from before the call (none, if there were none), and in a
consistent heap the created object is not among them. When `Connect` is ok the outcome is
a non-null token whose wrapper owns the constructed object, which stays alive with the
state `Connect` left; no destructor runs and no `ReportError` is made: `errno` is what
`Connect` left. -/
theorem C5_connect {σ : Type} (L : LowerLayer σ) (w : World σ) (nn : String) (port : Nat) :
    ((hdfsConnect L w nn port).1 = nullptr ↔
      (L.Connect (L.construct w.lower (w.next + 1)) (w.next + 1) nn port 1).status.ok
        = false) ∧
    ((hdfsConnect L w nn port).1 = nullptr →
      hdfsConnect L w nn port =
        (nullptr,
         { w with
           errno := ENODEV
           lower := L.destroyFileSystem
             (L.Connect (L.construct w.lower (w.next + 1)) (w.next + 1) nn port 1).state
             (w.next + 1)
           next := w.next + 1
           log := w.log ++ (Event.newFileSystem (w.next + 1) ::
             lowerEvents (Event.connect (w.next + 1) nn port 1)
               (L.Connect (L.construct w.lower (w.next + 1)) (w.next + 1) nn port
                 1).errnoWrite ++
             [Event.reportError ENODEV, Event.deleteFileSystem (w.next + 1)]) }) ∧
      (hdfsConnect L w nn port).2.errno = ENODEV ∧
      boundaryReported w (hdfsConnect L w nn port).2 = true ∧
      callTrace w (hdfsConnect L w nn port).2 =
        Event.newFileSystem (w.next + 1) ::
          lowerEvents (Event.connect (w.next + 1) nn port 1)
            (L.Connect (L.construct w.lower (w.next + 1)) (w.next + 1) nn port 1).errnoWrite
          ++ [Event.reportError ENODEV, Event.deleteFileSystem (w.next + 1)] ∧
      (hdfsConnect L w nn port).2.lower =
        L.destroyFileSystem
          (L.Connect (L.construct w.lower (w.next + 1)) (w.next + 1) nn port 1).state
          (w.next + 1) ∧
      handleState (hdfsConnect L w nn port).2 = handleState w ∧
      (w.sessions = [] → (hdfsConnect L w nn port).2.sessions = []) ∧
      (w.WF → (w.next + 1) ∉ (hdfsConnect L w nn port).2.sessions)) ∧
    ((hdfsConnect L w nn port).1 ≠ nullptr →
      hdfsConnect L w nn port =
        (w.next + 2,
         { w with
           errno :=
             (L.Connect (L.construct w.lower (w.next + 1)) (w.next + 1) nn port
               1).errnoWrite.getD w.errno
           lower :=
             (L.Connect (L.construct w.lower (w.next + 1)) (w.next + 1) nn port 1).state
           next := w.next + 2
           sessions := (w.next + 1) :: w.sessions
           fsTokens := (w.next + 2, w.next + 1) :: w.fsTokens
           log := w.log ++ (Event.newFileSystem (w.next + 1) ::
             lowerEvents (Event.connect (w.next + 1) nn port 1)
               (L.Connect (L.construct w.lower (w.next + 1)) (w.next + 1) nn port
                 1).errnoWrite) }) ∧
      get_impl (hdfsConnect L w nn port).1 (hdfsConnect L w nn port).2.fsTokens
        = some (w.next + 1) ∧
      (w.next + 1) ∈ (hdfsConnect L w nn port).2.sessions ∧
      callTrace w (hdfsConnect L w nn port).2 =
        Event.newFileSystem (w.next + 1) ::
          lowerEvents (Event.connect (w.next + 1) nn port 1)
            (L.Connect (L.construct w.lower (w.next + 1)) (w.next + 1) nn port 1).errnoWrite
        ∧
      (hdfsConnect L w nn port).2.lower =
        (L.Connect (L.construct w.lower (w.next + 1)) (w.next + 1) nn port 1).state ∧
      boundaryReported w (hdfsConnect L w nn port).2 = false ∧
      (hdfsConnect L w nn port).2.errno =
        (L.Connect (L.construct w.lower (w.next + 1)) (w.next + 1) nn port 1).errnoWrite.getD
          w.errno) := by
  have hcall : L.Connect (L.construct w.lower (w.next + 1)) (w.next + 1) nn port 1 =
      connectCall L w nn port := rfl
  rw [hcall]
  cases hok : (connectCall L w nn port).status.ok
  · rw [hdfsConnect_not_ok L w nn port hok]
    refine ⟨⟨fun _ => rfl, fun _ => rfl⟩,
      fun _ => ⟨rfl, rfl, ?_, ?_, rfl, ?_, ?_, ?_⟩, fun h => ?_⟩
    · simp only [boundaryReported]
      rw [callTrace_of_log _ _ _ rfl]
      simp [Event.isReport]
    · exact callTrace_of_log _ _ _ rfl
    · rfl
    · exact fun h => h
    · exact fun hwf hm => Nat.not_succ_le_self _ (hwf.2.2.2.2.1 _ hm)
    · exact absurd rfl h
  · rw [hdfsConnect_ok L w nn port hok]
    refine ⟨⟨fun h => ?_, fun h => ?_⟩, fun h => ?_,
      fun _ => ⟨rfl, ?_, ?_, ?_, rfl, ?_, rfl⟩⟩
    · simp [nullptr] at h
    · simp at h
    · simp [nullptr] at h
    · simp [get_impl, List.lookup]
    · simp
    · exact callTrace_of_log _ _ _ rfl
    · simp only [boundaryReported]
      rw [callTrace_of_log _ _ _ rfl]
      simp [any_isReport_lowerEvents, Event.isReport]

/-- Witness of C5 on the spec-modelled C++ layer, from program start: `hdfsConnect` to
port 1 fails, and afterwards no session is alive and the C++ layer holds no object, no
worker thread and no connection; `hdfsConnect` to port 8020 returns the non-null token 2
owning session 1, which has one worker thread running and a live connection. -/
theorem C5_connect_witness :
    ((hdfsConnect specLower specStart "namenode" 1).1 = nullptr ∧
      (hdfsConnect specLower specStart "namenode" 1).2.lower =
        specLower.destroyFileSystem
          (specLower.Connect (specLower.construct specStart.lower (specStart.next + 1))
            (specStart.next + 1) "namenode" 1 1).state (specStart.next + 1) ∧
      (hdfsConnect specLower specStart "namenode" 1).2.lower =
        { workers := [], connected := [], inputStreams := [] } ∧
      (hdfsConnect specLower specStart "namenode" 1).2.sessions = []) ∧
    ((hdfsConnect specLower specStart "namenode" 8020).1 ≠ nullptr ∧
      get_impl (hdfsConnect specLower specStart "namenode" 8020).1
        (hdfsConnect specLower specStart "namenode" 8020).2.fsTokens = some 1 ∧
      (hdfsConnect specLower specStart "namenode" 8020).2.lower =
        { workers := [(1, 1)], connected := [1], inputStreams := [] } ∧
      (hdfsConnect specLower specStart "namenode" 8020).2.errno = 0) :=
  ⟨⟨by decide,
    ((C5_connect specLower specStart "namenode" 1).2.1 (by decide)).2.2.2.2.1,
    by decide,
    ((C5_connect specLower specStart "namenode" 1).2.1 (by decide)).2.2.2.2.2.2.1 rfl⟩,
   by decide,
   ((C5_connect specLower specStart "namenode" 8020).2.2 (by decide)).2.1,
   by decide,
   ((C5_connect specLower specStart "namenode" 8020).2.2 (by decide)).2.2.2.2.2.2⟩

/-- C7: `hdfsCloseFile(fs, file)` returns 0 exactly when both handles are non-null. For
non-null `fs` and a non-null live `file` wrapping stream `s` the whole outcome is fixed: it
returns 0 after running the destructor of `s` on the state of the C++ layer, and of
nothing else; `s` and the wrapper `file` leave the heap, every other stream and file
wrapper, every session and filesystem wrapper, and `errno` are unchanged. When either
handle is null it returns -1 after one `ReportError` and nothing else: the handle state
and the state of the C++ layer are unchanged, no destructor runs, and a live `file`
passed with a null `fs` stays open. -/
theorem C7_closeFile {σ : Type} (L : LowerLayer σ) (w : World σ) (fs file : Addr) :
    (∀ r w', hdfsCloseFile L w fs file = some (r, w') →
      (r = 0 ↔ (fs ≠ nullptr ∧ file ≠ nullptr))) ∧
    (∀ s, fs ≠ nullptr → file ≠ nullptr → get_impl file w.fileTokens = some s →
      ∃ w', hdfsCloseFile L w fs file = some (0, w') ∧
        w' = { w with
               lower := L.destroyFileHandle w.lower s
               streams := w.streams.erase s
               fileTokens := dropToken file w.fileTokens
               log := w.log ++ [Event.deleteFileHandle s] } ∧
        callTrace w w' = [Event.deleteFileHandle s] ∧
        w'.lower = L.destroyFileHandle w.lower s ∧
        w'.streams = w.streams.erase s ∧
        w'.fileTokens = dropToken file w.fileTokens ∧
        (∀ s', s' ≠ s → (s' ∈ w'.streams ↔ s' ∈ w.streams)) ∧
        (∀ t, t ≠ file → get_impl t w'.fileTokens = get_impl t w.fileTokens) ∧
        w'.sessions = w.sessions ∧ w'.fsTokens = w.fsTokens ∧
        w'.errno = w.errno ∧ errnoSetDuring w w' = false ∧
        (w.WF → s ∉ w'.streams ∧ get_impl file w'.fileTokens = none)) ∧
    (fs = nullptr ∨ file = nullptr →
      ∃ w', hdfsCloseFile L w fs file = some (-1, w') ∧
        w' = { w with
               errno := if fs = nullptr then ENODEV else EBADF
               log := w.log ++ [Event.reportError (if fs = nullptr then ENODEV else EBADF)] } ∧
        handleState w' = handleState w ∧ lowerInvoked w w' = false ∧
        w'.lower = w.lower ∧
        get_impl file w'.fileTokens = get_impl file w.fileTokens) := by
  refine ⟨?_, ?_, ?_⟩
  · intro r w' h
    by_cases hfs : fs = nullptr
    · simp only [hdfsCloseFile, hfs, if_true, Option.some.injEq, Prod.mk.injEq] at h
      obtain ⟨rfl, -⟩ := h
      simp [hfs]
    · by_cases hfile : file = nullptr
      · simp only [hdfsCloseFile, hfs, hfile, if_true, if_false, Option.some.injEq,
          Prod.mk.injEq] at h
        obtain ⟨rfl, -⟩ := h
        simp [hfile]
      · cases hl : get_impl file w.fileTokens with
        | none => simp [hdfsCloseFile, hfs, hfile, hl] at h
        | some s =>
          rw [hdfsCloseFile_live L w fs file s hfs hfile hl] at h
          simp only [Option.some.injEq, Prod.mk.injEq] at h
          obtain ⟨rfl, -⟩ := h
          simp [hfs, hfile]
  · intro s hfs hfile hl
    refine ⟨_, hdfsCloseFile_live L w fs file s hfs hfile hl, rfl,
      callTrace_of_log _ _ _ rfl, rfl, rfl, rfl, ?_, ?_, rfl, rfl, rfl, ?_, ?_⟩
    · intro s' hne
      exact List.mem_erase_of_ne hne
    · intro t hne
      exact get_impl_dropToken_ne file t _ hne
    · simp only [errnoSetDuring]
      rw [callTrace_of_log _ _ [Event.deleteFileHandle s] rfl]
      rfl
    · intro hwf
      exact ⟨hwf.2.1.not_mem_erase, get_impl_dropToken_self file _ hwf.2.2.2.1⟩
  · intro hnull
    by_cases hfs : fs = nullptr
    · refine ⟨ReportError w ENODEV "", ?_, ?_, rfl, ?_, rfl, rfl⟩
      · simp [hdfsCloseFile, hfs, ReportError]
      · simp [hfs, ReportError]
      · simp [lowerInvoked, callTrace_of_log w (ReportError w ENODEV "") _ rfl,
          Event.isLowerCall]
    · have hfile : file = nullptr := hnull.resolve_left hfs
      refine ⟨ReportError w EBADF "", ?_, ?_, rfl, ?_, rfl, rfl⟩
      · simp [hdfsCloseFile, hfs, hfile, ReportError]
      · simp [hfs, ReportError]
      · simp [lowerInvoked, callTrace_of_log w (ReportError w EBADF "") _ rfl,
          Event.isLowerCall]

/-- Witness of C7 on the spec-modelled C++ layer: closing the open file through the live
handles runs the destructor of stream 3, after which the C++ layer holds no open stream
while session 1 keeps its worker thread and connection; closing it with a null filesystem
handle returns -1, and the stream is still open in the C++ layer. -/
theorem C7_closeFile_witness :
    (specFs ≠ nullptr ∧ specFile ≠ nullptr ∧
      get_impl specFile specOpened.fileTokens = some 3 ∧ specOpened.WF ∧
      specLower.IsOpenForRead specOpened.lower 3 = true ∧
      ∃ w', hdfsCloseFile specLower specOpened specFs specFile = some (0, w') ∧
        w'.lower = { workers := [(1, 1)], connected := [1], inputStreams := [] } ∧
        specLower.IsOpenForRead w'.lower 3 = false ∧
        w'.sessions = specOpened.sessions ∧ w'.errno = specOpened.errno ∧
        3 ∉ w'.streams ∧ get_impl specFile w'.fileTokens = none) ∧
    (∃ w', hdfsCloseFile specLower specOpened nullptr specFile = some (-1, w') ∧
      handleState w' = handleState specOpened ∧
      specLower.IsOpenForRead w'.lower 3 = true ∧
      get_impl specFile w'.fileTokens = some 3) := by
  have hwf : specOpened.WF := by
    simp [World.WF, specOpened, specConnected, specFs, specStart, specLower, hdfsOpenFile,
      hdfsConnect, World.alloc, World.init, lowerCall, get_impl, nullptr, List.lookup]
  refine ⟨⟨by decide, by decide, by decide, hwf, by decide, ?_⟩, ?_⟩
  · obtain ⟨w', h1, -, -, h2, -, -, -, -, h3, -, h4, -, h5⟩ :=
      (C7_closeFile specLower specOpened specFs specFile).2.1 3 (by decide) (by decide)
        (by decide)
    refine ⟨w', h1, h2.trans (by decide), ?_, h3, h4, (h5 hwf).1, (h5 hwf).2⟩
    rw [h2]
    decide
  · obtain ⟨w', h1, -, h2, -, h3, h4⟩ :=
      (C7_closeFile specLower specOpened nullptr specFile).2.2 (Or.inl rfl)
    refine ⟨w', h1, h2, ?_, h4.trans (by decide)⟩
    rw [h3]
    decide

/-- C8: `hdfsDisconnect(fs)` returns 0 exactly when `fs` is non-null. For a non-null live
`fs` wrapping session `obj` the whole outcome is fixed: it returns 0 after running the
destructor of `obj` on the state of the C++ layer, and of nothing else; `obj` and the
wrapper leave the heap, and `errno` is not written. For every host and port for which
`hdfsConnect` succeeds, `hdfsDisconnect` of the returned token, with nothing opened in
between, returns 0 after running the destructor of the session that connect constructed,
on the state `Connect` left; the live sessions and wrappers are again those from before
the connect: none, if there were none. -/
theorem C8_disconnect {σ : Type} (L : LowerLayer σ) (w : World σ) :
    (∀ fs r w', hdfsDisconnect L w fs = some (r, w') → (r = 0 ↔ fs ≠ nullptr)) ∧
    (∀ fs obj, fs ≠ nullptr → get_impl fs w.fsTokens = some obj →
      ∃ w', hdfsDisconnect L w fs = some (0, w') ∧
        w' = { w with
               lower := L.destroyFileSystem w.lower obj
               sessions := w.sessions.erase obj
               fsTokens := dropToken fs w.fsTokens
               log := w.log ++ [Event.deleteFileSystem obj] } ∧
        callTrace w w' = [Event.deleteFileSystem obj] ∧
        w'.lower = L.destroyFileSystem w.lower obj ∧
        w'.sessions = w.sessions.erase obj ∧
        w'.fsTokens = dropToken fs w.fsTokens ∧
        boundaryReported w w' = false ∧ errnoSetDuring w w' = false ∧
        w'.errno = w.errno ∧
        (w.WF → obj ∉ w'.sessions ∧ get_impl fs w'.fsTokens = none)) ∧
    (∀ nn port, (hdfsConnect L w nn port).1 ≠ nullptr →
      ∃ w2, hdfsDisconnect L (hdfsConnect L w nn port).2 (hdfsConnect L w nn port).1
          = some (0, w2) ∧
        w2 = { w with
               errno :=
                 (L.Connect (L.construct w.lower (w.next + 1)) (w.next + 1) nn port
                   1).errnoWrite.getD w.errno
               lower := L.destroyFileSystem
                 (L.Connect (L.construct w.lower (w.next + 1)) (w.next + 1) nn port
                   1).state (w.next + 1)
               next := w.next + 2
               log := w.log ++ (Event.newFileSystem (w.next + 1) ::
                 lowerEvents (Event.connect (w.next + 1) nn port 1)
                   (L.Connect (L.construct w.lower (w.next + 1)) (w.next + 1) nn port
                     1).errnoWrite ++
                 [Event.deleteFileSystem (w.next + 1)]) } ∧
        callTrace (hdfsConnect L w nn port).2 w2 = [Event.deleteFileSystem (w.next + 1)] ∧
        w2.lower = L.destroyFileSystem (hdfsConnect L w nn port).2.lower (w.next + 1) ∧
        handleState w2 = handleState w ∧
        (w.sessions = [] → w2.sessions = []) ∧
        (w.WF → (w.next + 1) ∉ w2.sessions)) := by
  refine ⟨?_, ?_, ?_⟩
  · intro fs r w' h
    by_cases hfs : fs = nullptr
    · simp only [hdfsDisconnect, hfs, if_true, Option.some.injEq, Prod.mk.injEq] at h
      obtain ⟨rfl, -⟩ := h
      simp [hfs]
    · cases hl : get_impl fs w.fsTokens with
      | none => simp [hdfsDisconnect, hfs, hl] at h
      | some obj =>
        rw [hdfsDisconnect_live L w fs obj hfs hl] at h
        simp only [Option.some.injEq, Prod.mk.injEq] at h
        obtain ⟨rfl, -⟩ := h
        simp [hfs]
  · intro fs obj hfs hl
    refine ⟨_, hdfsDisconnect_live L w fs obj hfs hl, rfl, callTrace_of_log _ _ _ rfl,
      rfl, rfl, rfl, ?_, ?_, rfl, ?_⟩
    · simp only [boundaryReported]
      rw [callTrace_of_log _ _ [Event.deleteFileSystem obj] rfl]
      rfl
    · simp only [errnoSetDuring]
      rw [callTrace_of_log _ _ [Event.deleteFileSystem obj] rfl]
      rfl
    · intro hwf
      exact ⟨hwf.1.not_mem_erase, get_impl_dropToken_self fs _ hwf.2.2.1⟩
  · intro nn port hne
    have hcall : L.Connect (L.construct w.lower (w.next + 1)) (w.next + 1) nn port 1 =
        connectCall L w nn port := rfl
    rw [hcall]
    cases hok : (connectCall L w nn port).status.ok
    · rw [hdfsConnect_not_ok L w nn port hok] at hne
      exact absurd rfl hne
    · rw [hdfsConnect_ok L w nn port hok]
      have hfs : w.next + 2 ≠ nullptr := by simp [nullptr]
      refine ⟨_, hdfsDisconnect_live L _ (w.next + 2) (w.next + 1) hfs
        (by simp [get_impl, List.lookup]), ?_, callTrace_of_log _ _ _ rfl, rfl, ?_, ?_, ?_⟩
      · simp [dropToken, lowerEvents, List.append_assoc]
      · simp [handleState, dropToken]
      · intro h
        simp [h]
      · intro hwf hm
        simp only [List.erase_cons_head] at hm
        exact Nat.not_succ_le_self _ (hwf.2.2.2.2.1 _ hm)

/-- Witness of C8 on the spec-modelled C++ layer, from program start: after `hdfsConnect`
to port 8020 the session has one worker thread running; `hdfsDisconnect` of the returned
token returns 0 and leaves no session alive, no worker thread and no connection. -/
theorem C8_disconnect_witness :
    (hdfsConnect specLower specStart "namenode" 8020).1 ≠ nullptr ∧
    (hdfsConnect specLower specStart "namenode" 8020).2.lower.workers = [(1, 1)] ∧
    ∃ w2, hdfsDisconnect specLower (hdfsConnect specLower specStart "namenode" 8020).2
        (hdfsConnect specLower specStart "namenode" 8020).1 = some (0, w2) ∧
      w2.lower = { workers := [], connected := [], inputStreams := [] } ∧
      w2.sessions = [] ∧ w2.fsTokens = [] := by
  refine ⟨by decide, by decide, ?_⟩
  obtain ⟨w2, h1, -, -, h2, h3, h4, -⟩ :=
    (C8_disconnect specLower specStart).2.2 "namenode" 8020 (by decide)
  refine ⟨w2, h1, h2.trans (by decide), h4 rfl, ?_⟩
  have := congrArg (fun p => p.2.2.1) h3
  exact this

/-- C9: `hdfsFileIsOpenForRead(file)` returns 0 for the null token, then leaving the world
as it was; for a non-null live `file` wrapping stream `s` it returns the value of
`IsOpenForRead` of `s` as an `int` (1 for true, 0 for false), after that one call. In
neither case is `errno` written or the state of any handle changed. -/
theorem C9_isOpenForRead {σ : Type} (L : LowerLayer σ) (w : World σ) :
    hdfsFileIsOpenForRead L w nullptr = some (0, w) ∧
    (∀ file s, file ≠ nullptr → get_impl file w.fileTokens = some s →
      ∃ w', hdfsFileIsOpenForRead L w file
          = some (boolToInt (L.IsOpenForRead w.lower s), w') ∧
        (L.IsOpenForRead w.lower s = true → boolToInt (L.IsOpenForRead w.lower s) = 1) ∧
        (L.IsOpenForRead w.lower s = false → boolToInt (L.IsOpenForRead w.lower s) = 0) ∧
        callTrace w w' = [Event.isOpenForRead s] ∧
        errnoSetDuring w w' = false ∧ w'.errno = w.errno ∧
        handleState w' = handleState w ∧ w'.lower = w.lower) := by
  refine ⟨by simp [hdfsFileIsOpenForRead, boolToInt], ?_⟩
  intro file s hfile hl
  refine ⟨{ w with log := w.log ++ [Event.isOpenForRead s] }, ?_, ?_, ?_,
    callTrace_of_log _ _ _ rfl, ?_, rfl, rfl, rfl⟩
  · simp [hdfsFileIsOpenForRead, hfile, hl]
  · intro h
    simp [boolToInt, h]
  · intro h
    simp [boolToInt, h]
  · simp only [errnoSetDuring]
    rw [callTrace_of_log _ _ [Event.isOpenForRead s] rfl]
    rfl

/-- Witness of C9: the open demo file reports 1. -/
theorem C9_isOpenForRead_witness :
    demoFile ≠ nullptr ∧ get_impl demoFile demoOpened.fileTokens = some 3 ∧
    ∃ w', hdfsFileIsOpenForRead demoLower demoOpened demoFile = some (1, w') ∧
      w'.errno = demoOpened.errno ∧ handleState w' = handleState demoOpened := by
  refine ⟨by decide, by decide, ?_⟩
  obtain ⟨w', h1, -, -, -, -, h2, h3, -⟩ :=
    (C9_isOpenForRead demoLower demoOpened).2 demoFile 3 (by decide) (by decide)
  exact ⟨w', h1, h2, h3⟩

/-- C10: for a non-null live `fs` wrapping session `obj` and every path, the outcome of
`hdfsOpenFile` is determined by `OpenFileForRead(path)` on `obj` alone, and is fixed as a
whole. When its status is ok the result is a non-null token whose wrapper owns exactly
the stream that call created, in the state of the C++ layer that call left; otherwise it
is the null token, again in the state that call left. That call is the only one made.
Two calls from the same state that differ only in `flags`, `bufferSize`, `replication` or
`blocksize` have the same outcome: same token, same world, same trace. -/
theorem C10_open_ignores_legacy_parameters {σ : Type} (L : LowerLayer σ) (w : World σ)
    (fs obj : Addr) (path : String)
    (flags bufferSize replication blocksize flags2 bufferSize2 replication2 blocksize2 : Int)
    (hfs : fs ≠ nullptr) (hlive : get_impl fs w.fsTokens = some obj) :
    ((L.OpenFileForRead w.lower obj path (w.next + 1)).status.ok = true →
      ∃ tok w', hdfsOpenFile L w fs path flags bufferSize replication blocksize
          = some (tok, w') ∧
        tok = w.next + 2 ∧
        w' = { w with
               errno :=
                 (L.OpenFileForRead w.lower obj path (w.next + 1)).errnoWrite.getD w.errno
               lower := (L.OpenFileForRead w.lower obj path (w.next + 1)).state
               next := w.next + 2
               streams := (w.next + 1) :: w.streams
               fileTokens := (w.next + 2, w.next + 1) :: w.fileTokens
               log := w.log ++ lowerEvents (Event.openFileForRead obj path)
                 (L.OpenFileForRead w.lower obj path (w.next + 1)).errnoWrite } ∧
        tok ≠ nullptr ∧ get_impl tok w'.fileTokens = some (w.next + 1) ∧
        w'.streams = (w.next + 1) :: w.streams ∧
        w'.lower = (L.OpenFileForRead w.lower obj path (w.next + 1)).state ∧
        callTrace w w' = lowerEvents (Event.openFileForRead obj path)
          (L.OpenFileForRead w.lower obj path (w.next + 1)).errnoWrite) ∧
    ((L.OpenFileForRead w.lower obj path (w.next + 1)).status.ok = false →
      ∃ w', hdfsOpenFile L w fs path flags bufferSize replication blocksize
          = some (nullptr, w') ∧
        w' = { w with
               errno :=
                 (L.OpenFileForRead w.lower obj path (w.next + 1)).errnoWrite.getD w.errno
               lower := (L.OpenFileForRead w.lower obj path (w.next + 1)).state
               log := w.log ++ lowerEvents (Event.openFileForRead obj path)
                 (L.OpenFileForRead w.lower obj path (w.next + 1)).errnoWrite } ∧
        w'.streams = w.streams ∧ w'.fileTokens = w.fileTokens ∧
        w'.lower = (L.OpenFileForRead w.lower obj path (w.next + 1)).state ∧
        callTrace w w' = lowerEvents (Event.openFileForRead obj path)
          (L.OpenFileForRead w.lower obj path (w.next + 1)).errnoWrite) ∧
    hdfsOpenFile L w fs path flags bufferSize replication blocksize =
      hdfsOpenFile L w fs path flags2 bufferSize2 replication2 blocksize2 := by
  refine ⟨?_, ?_, rfl⟩
  · intro hok
    refine ⟨_, _, hdfsOpenFile_ok L w fs obj path _ _ _ _ hfs hlive hok, rfl, rfl,
      by simp [nullptr], by simp [get_impl, List.lookup], rfl, rfl, ?_⟩
    exact callTrace_of_log _ _ (lowerEvents (Event.openFileForRead obj path) _) rfl
  · intro hfail
    exact ⟨_, hdfsOpenFile_not_ok L w fs obj path _ _ _ _ hfs hlive hfail, rfl, rfl, rfl,
      rfl, trace_lowerCall _ _ _ _⟩

/-- Witness of C10 on the spec-modelled C++ layer: opening `/data` on the connected world
read-only (flags 0) and with a write-mode flag (flags 1) and other legacy values gives the
same outcome: the file token 4 wrapping stream 3, which the C++ layer now holds open. -/
theorem C10_open_ignores_legacy_parameters_witness :
    specFs ≠ nullptr ∧ get_impl specFs specConnected.fsTokens = some 1 ∧
    (specLower.OpenFileForRead specConnected.lower 1 "/data"
      (specConnected.next + 1)).status.ok = true ∧
    specLower.IsOpenForRead specConnected.lower 3 = false ∧
    (∃ tok w', hdfsOpenFile specLower specConnected specFs "/data" 0 0 0 0
        = some (tok, w') ∧
      tok = 4 ∧ get_impl tok w'.fileTokens = some 3 ∧
      w'.lower = { workers := [(1, 1)], connected := [1], inputStreams := [3] } ∧
      specLower.IsOpenForRead w'.lower 3 = true) ∧
    hdfsOpenFile specLower specConnected specFs "/data" 0 0 0 0 =
      hdfsOpenFile specLower specConnected specFs "/data" 1 4096 3 134217728 := by
  refine ⟨by decide, by decide, by decide, by decide, ?_,
    (C10_open_ignores_legacy_parameters specLower specConnected specFs 1 "/data" 0 0 0 0
      1 4096 3 134217728 (by decide) (by decide)).2.2⟩
  obtain ⟨tok, w', h1, h2, -, -, h3, -, h4, -⟩ :=
    (C10_open_ignores_legacy_parameters specLower specConnected specFs 1 "/data" 0 0 0 0
      1 4096 3 134217728 (by decide) (by decide)).1 (by decide)
  refine ⟨tok, w', h1, h2.trans (by decide), h3.trans (by decide), h4.trans (by decide), ?_⟩
  rw [h4]
  decide

end Hdfs
